import Mathlib

/-!
Verification of the path-targeting engine (`src/lib/util/PathMatcher.ts`).

The engine classifies a heterogeneous pattern list into inclusion, exclusion
and advanced buckets, compiles the string buckets through the external glob
capability (picomatch), and composes one asynchronous decision function.
Promises are modelled with `Except String`: `Except.ok b` is a promise that
resolved to the boolean `b`, `Except.error e` is a rejected promise.  The
`async`/`await` sequencing of the TypeScript source is the monadic sequencing
of `Except`, and `Promise.all` over a list of promises is `List.mapM`, which
fails exactly when some element fails.
-/

set_option autoImplicit false

namespace SfdxScanner

mutual
/-- A `TargetPattern` is either a plain glob string (a `BasicTargetPattern`,
possibly carrying the leading negation marker) or an `AdvancedTargetPattern`
record holding nested base patterns plus a caller-supplied asynchronous
predicate.  The nested pattern list is represented by the mutually inductive
`TargetPatternList` so that the recursive matcher construction is structural. -/
inductive TargetPattern : Type where
  | basic : String → TargetPattern
  | advanced : TargetPatternList → (String → Except String Bool) → TargetPattern
inductive TargetPatternList : Type where
  | nil : TargetPatternList
  | cons : TargetPattern → TargetPatternList → TargetPatternList
end

/-- View of a `TargetPatternList` as an ordinary list. -/
def TargetPatternList.toList : TargetPatternList → List TargetPattern
  | .nil => []
  | .cons p ps => p :: ps.toList

/-- Characters treated as path separators by `normalize-path`. -/
def isSep (c : Char) : Bool := c == '/' || c == '\\'

/-- JavaScript `path.split(/[/\x5c]+/)`: split at each maximal run of
separators, keeping the (possibly empty) fields between runs. -/
def splitRunsGo (inRun : Bool) (cur : List Char) : List Char → List (List Char)
  | [] => [cur.reverse]
  | c :: cs =>
    if isSep c then
      if inRun then splitRunsGo true [] cs
      else cur.reverse :: splitRunsGo true [] cs
    else splitRunsGo false (c :: cur) cs

/-- The `normalize-path` package: convert every backslash to `/`, collapse
separator runs, strip a trailing separator, and preserve a Windows
extended-length `\\?\\`/`\\.\\` prefix as `//`. -/
def normalize (path : String) : String :=
  if path == "\\" || path == "/" then "/"
  else if path.length ≤ 1 then path
  else
    let cs := path.toList
    let winUNC : Bool :=
      if 4 < path.length ∧ (cs.drop 3).take 1 = ['\\'] ∧
          ((cs.drop 2).take 1 = ['?'] ∨ (cs.drop 2).take 1 = ['.']) ∧
          cs.take 2 = ['\\', '\\']
      then true else false
    let body := if winUNC then cs.drop 2 else cs
    let pfx : String := if winUNC then "//" else ""
    let segs := splitRunsGo false [] body
    let segs := if segs.getLast? == some ([] : List Char) then segs.dropLast else segs
    pfx ++ String.intercalate "/" (segs.map String.mk)

/-- Suffixes of a character list that begin right after a `/`. -/
def afterSlash : List Char → List (List Char)
  | [] => []
  | c :: cs => if c == '/' then cs :: afterSlash cs else afterSlash cs

/-- All suffixes of a character list (including itself and the empty one). -/
def allSuffixes : List Char → List (List Char)
  | [] => [[]]
  | c :: cs => (c :: cs) :: allSuffixes cs

/-- Suffixes obtained by dropping zero or more non-separator characters. -/
def starDrops : List Char → List (List Char)
  | [] => [[]]
  | c :: cs => (c :: cs) :: (if c == '/' then [] else starDrops cs)

/-- Glob semantics of the external picomatch capability, on one pattern:
`**/` matches an optional run of whole path segments, `**` any run of
characters, `*` a run of non-separator characters, anything else itself. -/
def globMatch : List Char → List Char → Bool
  | [], ts => ts.isEmpty
  | '*' :: '*' :: '/' :: ps, ts => (ts :: afterSlash ts).any (globMatch ps)
  | '*' :: '*' :: ps, ts => (allSuffixes ts).any (globMatch ps)
  | '*' :: ps, ts => (starDrops ts).any (globMatch ps)
  | c :: ps, ts =>
    match ts with
    | [] => false
    | t :: ts => c == t && globMatch ps ts

/-- The compiled picomatch matcher applied to a path: OR across the pattern
set, and an empty pattern set matches nothing. -/
def picomatch (patterns : List String) (t : String) : Bool :=
  patterns.any (fun p => globMatch p.toList t.toList)

/-- The three buckets produced by `sortPatterns`. -/
structure SortedPatterns : Type where
  inclusionPatterns : List String
  exclusionPatterns : List String
  advancedPatterns : List TargetPattern

/-- True when the normalized pattern starts with the negation marker `!`. -/
def hasNegationMarker (s : String) : Bool :=
  match s.toList with
  | '!' :: _ => true
  | _ => false

/-- Method sortPatterns of PathMatcher: normalize each string pattern, route it to the
inclusion bucket, or (marker stripped) to the exclusion bucket when it starts
with `!`; route advanced patterns unchanged to the advanced bucket. -/
def sortPatterns : TargetPatternList → SortedPatterns
  | .nil => ⟨[], [], []⟩
  | .cons p ps =>
    let rest := sortPatterns ps
    match p with
    | .basic s =>
      let np := normalize s
      if !(hasNegationMarker np) then
        { rest with inclusionPatterns := np :: rest.inclusionPatterns }
      else
        { rest with exclusionPatterns := np.drop 1 :: rest.exclusionPatterns }
    | .advanced base am =>
      { rest with advancedPatterns := TargetPattern.advanced base am :: rest.advancedPatterns }

/-- Body of the closure returned by `generateMatchingFunction`, given the
already-gathered advanced results (the awaited
`Promise.all(advancedMatchers.map(am => am(t)))`):
`(exclusionPatterns.length === 0 || !exclusionMatcher(t)) &&
 ((!inclusionPatterns.length && !advancedPatterns.length) ||
  inclusionMatcher(t) || advancedResults.includes(true))`. -/
def composeDecision (sorted : SortedPatterns) (advRes : Except String (List Bool))
    (t : String) : Except String Bool :=
  if sorted.exclusionPatterns.length == 0 || !(picomatch sorted.exclusionPatterns t) then
    if (sorted.inclusionPatterns.isEmpty && sorted.advancedPatterns.isEmpty)
        || picomatch sorted.inclusionPatterns t then
      Except.ok true
    else
      match advRes with
      | .ok rs => Except.ok (rs.contains true)
      | .error e => Except.error e
  else
    Except.ok false

/-- The gathered results of every advanced matcher of the list on `t`, in
order: for each advanced pattern, `await baseMatcher(t) && await
advancedMatcher(t)` where the base matcher is the recursively generated
matching function of its base patterns; a rejection anywhere rejects the
whole gather, as `Promise.all` does. -/
def advancedResults : TargetPatternList → String → Except String (List Bool)
  | .nil, _ => .ok []
  | .cons (.basic _) ps, t => advancedResults ps t
  | .cons (.advanced base am) ps, t =>
    let r : Except String Bool :=
      match composeDecision (sortPatterns base) (advancedResults base t) t with
      | .ok true => am t
      | .ok false => .ok false
      | .error e => .error e
    match r with
    | .ok b =>
      match advancedResults ps t with
      | .ok rs => .ok (b :: rs)
      | .error e => .error e
    | .error e => .error e

/-- Method generateMatchingFunction of PathMatcher: sort the patterns once and return
the composed asynchronous decision function. -/
def generateMatchingFunction (patterns : TargetPatternList) : String → Except String Bool :=
  fun t => composeDecision (sortPatterns patterns) (advancedResults patterns t) t

/-- Method generateAdvancedMatcher of PathMatcher: `await baseMatcher(t) && await
pattern.advancedMatcher(t)`, where `baseMatcher` is the matching function
generated from the base patterns of the advanced pattern. -/
def generateAdvancedMatcher (basePatterns : TargetPatternList)
    (advancedMatcher : String → Except String Bool) : String → Except String Bool :=
  fun t =>
    match generateMatchingFunction basePatterns t with
    | .ok true => advancedMatcher t
    | .ok false => .ok false
    | .error e => .error e

/-- The advanced decision of one bucket entry (bucket entries are always
`advanced`; a `basic` entry never reaches the bucket). -/
def advancedDecision (p : TargetPattern) (t : String) : Except String Bool :=
  match p with
  | .basic _ => .ok false
  | .advanced base am => generateAdvancedMatcher base am t

/-- The `PathMatcher` class: it holds only the matching function built once
by its constructor from the pattern list. -/
structure PathMatcher : Type where
  matcher : String → Except String Bool

/-- The `PathMatcher` constructor. -/
def PathMatcher.construct (patterns : TargetPatternList) : PathMatcher :=
  ⟨generateMatchingFunction patterns⟩

/-- The `matchResults.forEach((r, idx) => { if (r) filteredTargets.push(targets[idx]) })`
loop of `filterPathsByPatterns`. -/
def collectFiltered : List String → List Bool → List String
  | t :: ts, r :: rs => if r then t :: collectFiltered ts rs else collectFiltered ts rs
  | _, _ => []

/-- Method filterPathsByPatterns of PathMatcher: evaluate the matcher on every
normalized target (`Promise.all`), then keep the original target strings
whose result was true. -/
def PathMatcher.filterPathsByPatterns (m : PathMatcher) (targets : List String) :
    Except String (List String) :=
  match targets.mapM (fun t => m.matcher (normalize t)) with
  | .ok matchResults => .ok (collectFiltered targets matchResults)
  | .error e => .error e

/-- Method pathMatchesPatterns of PathMatcher: evaluate the matcher on the normalized
target. -/
def PathMatcher.pathMatchesPatterns (m : PathMatcher) (target : String) :
    Except String Bool :=
  m.matcher (normalize target)

/-- The caller-supplied predicate of the worked advanced example: true exactly
for paths containing the substring `Test` (always resolves). -/
def leadsWith : List Char → List Char → Bool
  | [], _ => true
  | _ :: _, [] => false
  | a :: as, b :: bs => a == b && leadsWith as bs

def hasSubstringTest (t : String) : Bool :=
  (allSuffixes t.toList).any (leadsWith "Test".toList)

/-- The boolean a batch query keeps a target by, when every evaluation
resolves: the decision of the matcher on the normalized target. -/
def matchKeep (patterns : TargetPatternList) (t : String) : Bool :=
  match generateMatchingFunction patterns (normalize t) with
  | .ok b => b
  | .error _ => false

/-- The worked advanced example: base pattern `**/*.cls` with a predicate
true only for paths containing `Test`. -/
def clsTestPatterns : TargetPatternList :=
  .cons (.advanced (.cons (.basic "**/*.cls") .nil)
    (fun t => Except.ok (hasSubstringTest t))) .nil

/- ------------------------------------------------------------------ -/
/- Lemmas                                                              -/
/- ------------------------------------------------------------------ -/

/-- Induction on the spine of a `TargetPatternList` (no recursion into the
base patterns of advanced entries). -/
theorem TargetPatternList.spineInduction (motive : TargetPatternList → Prop)
    (hnil : motive .nil) (hcons : ∀ p ps, motive ps → motive (.cons p ps)) :
    ∀ ps, motive ps
  | .nil => hnil
  | .cons p ps => hcons p ps (TargetPatternList.spineInduction motive hnil hcons ps)

theorem advancedResults_cons_advanced (base : TargetPatternList)
    (am : String → Except String Bool) (ps : TargetPatternList) (t : String) :
    advancedResults (.cons (.advanced base am) ps) t =
      match generateAdvancedMatcher base am t with
      | .ok b =>
        match advancedResults ps t with
        | .ok rs => .ok (b :: rs)
        | .error e => .error e
      | .error e => .error e := rfl

/-- The gathered advanced results are exactly the decisions of the advanced bucket,
sequenced in bucket order. -/
theorem advancedResults_eq_mapM (t : String) (ps : TargetPatternList) :
    advancedResults ps t =
      (sortPatterns ps).advancedPatterns.mapM (fun q => advancedDecision q t) := by
  induction ps using TargetPatternList.spineInduction with
  | hnil => simp [advancedResults, sortPatterns, List.mapM_nil]; rfl
  | hcons p ps ih =>
    cases p with
    | basic s =>
      show advancedResults ps t = _
      rw [ih]
      congr 1
      simp only [sortPatterns]
      split <;> rfl
    | advanced base am =>
      rw [advancedResults_cons_advanced]
      have hbucket : (sortPatterns (.cons (.advanced base am) ps)).advancedPatterns
          = TargetPattern.advanced base am :: (sortPatterns ps).advancedPatterns := rfl
      rw [hbucket, List.mapM_cons]
      rw [ih]
      show _ = Except.bind (advancedDecision (TargetPattern.advanced base am) t) _
      have hdec : advancedDecision (TargetPattern.advanced base am) t
          = generateAdvancedMatcher base am t := rfl
      rw [hdec]
      cases generateAdvancedMatcher base am t with
      | error e => rfl
      | ok b =>
        show (match (sortPatterns ps).advancedPatterns.mapM (fun q => advancedDecision q t) with
              | .ok rs => Except.ok (b :: rs)
              | .error e => Except.error e) = _
        cases (sortPatterns ps).advancedPatterns.mapM (fun q => advancedDecision q t) with
        | error e => rfl
        | ok rs => rfl

/- ------------------------------------------------------------------ -/
/- Claims                                                              -/
/- ------------------------------------------------------------------ -/

/-- C1: for every pattern list and every path `p`, `pathMatchesPatterns p`
normalizes `p` and returns exactly the composed rule: (the exclusion bucket
is empty OR the compiled exclusion predicate is false on the normalized
path) AND ((the inclusion bucket is empty AND the advanced bucket is empty)
OR the compiled inclusion predicate is true on the normalized path OR at
least one advanced decision is true on the normalized path) — the advanced
decisions being gathered monadically, so that a rejection among them
propagates. -/
theorem pathMatchesPatterns_composed_rule (patterns : TargetPatternList) (p : String) :
    (PathMatcher.construct patterns).pathMatchesPatterns p =
      (if (sortPatterns patterns).exclusionPatterns = []
          ∨ picomatch (sortPatterns patterns).exclusionPatterns (normalize p) = false then
        if ((sortPatterns patterns).inclusionPatterns = []
              ∧ (sortPatterns patterns).advancedPatterns.isEmpty = true)
            ∨ picomatch (sortPatterns patterns).inclusionPatterns (normalize p) = true then
          Except.ok true
        else
          match (sortPatterns patterns).advancedPatterns.mapM
              (fun q => advancedDecision q (normalize p)) with
          | .ok rs => Except.ok (rs.contains true)
          | .error e => Except.error e
      else Except.ok false) := by
  show composeDecision (sortPatterns patterns) (advancedResults patterns (normalize p))
      (normalize p) = _
  rw [advancedResults_eq_mapM]
  set S := sortPatterns patterns with hS
  set np := normalize p with hnp
  unfold composeDecision
  have hA : ((S.exclusionPatterns.length == 0 || !picomatch S.exclusionPatterns np) = true)
      ↔ (S.exclusionPatterns = [] ∨ picomatch S.exclusionPatterns np = false) := by
    simp [List.length_eq_zero, Bool.not_eq_true']
  have hB : ((S.inclusionPatterns.isEmpty && S.advancedPatterns.isEmpty
        || picomatch S.inclusionPatterns np) = true)
      ↔ ((S.inclusionPatterns = [] ∧ S.advancedPatterns.isEmpty = true)
          ∨ picomatch S.inclusionPatterns np = true) := by
    simp [List.isEmpty_iff]
  rw [if_congr hA (if_congr hB rfl rfl) rfl]

/-- A decision function rejects outright any path matching the compiled
exclusion predicate, whatever the other buckets hold. -/
theorem composeDecision_excluded (S : SortedPatterns) (A : Except String (List Bool))
    (t : String) (h : picomatch S.exclusionPatterns t = true) :
    composeDecision S A t = Except.ok false := by
  have hne : S.exclusionPatterns ≠ [] := by
    intro hc
    rw [hc] at h
    simp [picomatch] at h
  unfold composeDecision
  have hcond : (S.exclusionPatterns.length == 0 || !picomatch S.exclusionPatterns t) = false := by
    simp [h, List.length_eq_zero, hne]
  rw [if_neg (by simp [hcond])]

/-- C2: exclusion dominates and follows De Morgan.  The exclusion strings are
compiled into one OR-based predicate whose result is negated: a path matching
at least one exclusion glob is rejected outright regardless of inclusion or
advanced results, a path whose query resolves to true matched none of the
exclusion globs, and the compiled predicate is exactly the OR of the
per-glob tests. -/
theorem exclusion_dominates (patterns : TargetPatternList) (p : String) :
    ((sortPatterns patterns).exclusionPatterns ≠ [] →
      picomatch (sortPatterns patterns).exclusionPatterns (normalize p) = true →
      (PathMatcher.construct patterns).pathMatchesPatterns p = Except.ok false)
    ∧ ((PathMatcher.construct patterns).pathMatchesPatterns p = Except.ok true →
      picomatch (sortPatterns patterns).exclusionPatterns (normalize p) = false)
    ∧ (picomatch (sortPatterns patterns).exclusionPatterns (normalize p) = true ↔
      ∃ s ∈ (sortPatterns patterns).exclusionPatterns,
        globMatch s.toList (normalize p).toList = true) := by
  refine ⟨fun _ h => composeDecision_excluded _ _ _ h, fun hres => ?_, ?_⟩
  · cases h : picomatch (sortPatterns patterns).exclusionPatterns (normalize p) with
    | false => rfl
    | true =>
      have : (PathMatcher.construct patterns).pathMatchesPatterns p = Except.ok false :=
        composeDecision_excluded _ _ _ h
      rw [hres] at this
      exact absurd (Except.ok.injEq _ _ ▸ congrArg id this) (by simp)
  · simp [picomatch, List.any_eq_true]

/-- Witness for C2: with inclusion `**/*.ts` and exclusion `!**/*.ts`, the
path `a.ts` is rejected although the inclusion pattern matches it. -/
theorem exclusion_dominates_witness :
    (PathMatcher.construct (.cons (.basic "**/*.ts")
        (.cons (.basic "!**/*.ts") .nil))).pathMatchesPatterns "a.ts"
      = Except.ok false :=
  (exclusion_dominates (.cons (.basic "**/*.ts") (.cons (.basic "!**/*.ts") .nil))
    "a.ts").1 (by decide) (by decide)

theorem sortPatterns_inclusion_eq (patterns : TargetPatternList) :
    (sortPatterns patterns).inclusionPatterns = patterns.toList.filterMap fun q =>
      match q with
      | .basic s => if hasNegationMarker (normalize s) then none else some (normalize s)
      | .advanced _ _ => none := by
  induction patterns using TargetPatternList.spineInduction with
  | hnil => rfl
  | hcons p ps ih =>
    cases p with
    | basic s =>
      cases hm : hasNegationMarker (normalize s) with
      | false => simp [sortPatterns, TargetPatternList.toList, List.filterMap_cons, hm, ih]
      | true => simp [sortPatterns, TargetPatternList.toList, List.filterMap_cons, hm, ih]
    | advanced base am =>
      simp [sortPatterns, TargetPatternList.toList, List.filterMap_cons, ih]

theorem sortPatterns_exclusion_eq (patterns : TargetPatternList) :
    (sortPatterns patterns).exclusionPatterns = patterns.toList.filterMap fun q =>
      match q with
      | .basic s =>
        if hasNegationMarker (normalize s) then some ((normalize s).drop 1) else none
      | .advanced _ _ => none := by
  induction patterns using TargetPatternList.spineInduction with
  | hnil => rfl
  | hcons p ps ih =>
    cases p with
    | basic s =>
      cases hm : hasNegationMarker (normalize s) with
      | false => simp [sortPatterns, TargetPatternList.toList, List.filterMap_cons, hm, ih]
      | true => simp [sortPatterns, TargetPatternList.toList, List.filterMap_cons, hm, ih]
    | advanced base am =>
      simp [sortPatterns, TargetPatternList.toList, List.filterMap_cons, ih]

theorem sortPatterns_advanced_eq (patterns : TargetPatternList) :
    (sortPatterns patterns).advancedPatterns = patterns.toList.filter fun q =>
      match q with
      | .basic _ => false
      | .advanced _ _ => true := by
  induction patterns using TargetPatternList.spineInduction with
  | hnil => rfl
  | hcons p ps ih =>
    cases p with
    | basic s =>
      cases hm : hasNegationMarker (normalize s) with
      | false => simp [sortPatterns, TargetPatternList.toList, List.filter_cons, hm, ih]
      | true => simp [sortPatterns, TargetPatternList.toList, List.filter_cons, hm, ih]
    | advanced base am =>
      simp [sortPatterns, TargetPatternList.toList, List.filter_cons, ih]

theorem sortPatterns_total_count (patterns : TargetPatternList) :
    (sortPatterns patterns).inclusionPatterns.length
      + (sortPatterns patterns).exclusionPatterns.length
      + (sortPatterns patterns).advancedPatterns.length = patterns.toList.length := by
  induction patterns using TargetPatternList.spineInduction with
  | hnil => rfl
  | hcons p ps ih =>
    cases p with
    | basic s =>
      cases hm : hasNegationMarker (normalize s) with
      | false =>
        simp only [sortPatterns, hm, Bool.not_false, if_pos, TargetPatternList.toList,
          List.length_cons]
        omega
      | true =>
        simp only [sortPatterns, hm, Bool.not_true, if_neg, TargetPatternList.toList,
          List.length_cons, Bool.false_eq_true, not_false_eq_true]
        omega
    | advanced base am =>
      simp only [sortPatterns, TargetPatternList.toList, List.length_cons]
      omega

/-- C3: classification places every input pattern in exactly one bucket: a
string pattern is normalized, then routed (marker stripped) to the exclusion
bucket when it starts with `!` and to the inclusion bucket otherwise; an
advanced pattern goes unchanged to the advanced bucket, its base patterns
untouched; the bucket sizes add up to the input size, and the empty input
yields all-empty buckets (classification is a pure function). -/
theorem sortPatterns_classifies_each_pattern_once (patterns : TargetPatternList) :
    ((sortPatterns patterns).inclusionPatterns = patterns.toList.filterMap fun q =>
      match q with
      | .basic s => if hasNegationMarker (normalize s) then none else some (normalize s)
      | .advanced _ _ => none)
    ∧ ((sortPatterns patterns).exclusionPatterns = patterns.toList.filterMap fun q =>
      match q with
      | .basic s =>
        if hasNegationMarker (normalize s) then some ((normalize s).drop 1) else none
      | .advanced _ _ => none)
    ∧ ((sortPatterns patterns).advancedPatterns = patterns.toList.filter fun q =>
      match q with
      | .basic _ => false
      | .advanced _ _ => true)
    ∧ (sortPatterns patterns).inclusionPatterns.length
        + (sortPatterns patterns).exclusionPatterns.length
        + (sortPatterns patterns).advancedPatterns.length = patterns.toList.length
    ∧ sortPatterns TargetPatternList.nil = ⟨[], [], []⟩ :=
  ⟨sortPatterns_inclusion_eq patterns, sortPatterns_exclusion_eq patterns,
    sortPatterns_advanced_eq patterns, sortPatterns_total_count patterns, rfl⟩

/-- C4: the advanced decision is the logical AND of the decision function
recursively built from the base patterns of the pattern and the caller-supplied
predicate; with base patterns `[**/*.cls]` and a predicate true only for
paths containing `Test`, `FooTest.cls` matches while `Foo.cls` and `Foo.txt`
do not, and `Foo.txt` stays rejected even under an always-true predicate. -/
theorem generateAdvancedMatcher_and_semantics :
    (∀ (base : TargetPatternList) (am : String → Except String Bool) (t : String) (a b : Bool),
        generateMatchingFunction base t = Except.ok a → am t = Except.ok b →
        generateAdvancedMatcher base am t = Except.ok (a && b))
    ∧ (PathMatcher.construct clsTestPatterns).pathMatchesPatterns "FooTest.cls" = Except.ok true
    ∧ (PathMatcher.construct clsTestPatterns).pathMatchesPatterns "Foo.cls" = Except.ok false
    ∧ (PathMatcher.construct clsTestPatterns).pathMatchesPatterns "Foo.txt" = Except.ok false
    ∧ (PathMatcher.construct (.cons (.advanced (.cons (.basic "**/*.cls") .nil)
          (fun _ => Except.ok true)) .nil)).pathMatchesPatterns "Foo.txt"
        = Except.ok false := by
  refine ⟨fun base am t a b h1 h2 => ?_, rfl, rfl, rfl, rfl⟩
  unfold generateAdvancedMatcher
  rw [h1]
  cases a with
  | false => rfl
  | true => rw [h2]; rfl

/-- Witness for C4: the AND law applied to the concrete base pattern
`**/*.cls` and the `Test`-substring predicate on `FooTest.cls`, where both
sides resolve to true. -/
theorem generateAdvancedMatcher_and_semantics_witness :
    generateAdvancedMatcher (.cons (.basic "**/*.cls") .nil)
      (fun t => Except.ok (hasSubstringTest t)) "FooTest.cls" = Except.ok (true && true) :=
  generateAdvancedMatcher_and_semantics.1 (.cons (.basic "**/*.cls") .nil)
    (fun t => Except.ok (hasSubstringTest t)) "FooTest.cls" true true rfl rfl

/-- C5: default accept.  When the inclusion and advanced buckets are both
empty, every path that the exclusion clause does not reject is accepted. -/
theorem default_accept_when_no_inclusion_no_advanced (patterns : TargetPatternList)
    (p : String)
    (h1 : (sortPatterns patterns).inclusionPatterns = [])
    (h2 : (sortPatterns patterns).advancedPatterns.isEmpty = true)
    (h3 : (sortPatterns patterns).exclusionPatterns = []
        ∨ picomatch (sortPatterns patterns).exclusionPatterns (normalize p) = false) :
    (PathMatcher.construct patterns).pathMatchesPatterns p = Except.ok true := by
  show composeDecision (sortPatterns patterns) (advancedResults patterns (normalize p))
      (normalize p) = _
  unfold composeDecision
  have hcond : ((sortPatterns patterns).exclusionPatterns.length == 0
      || !picomatch (sortPatterns patterns).exclusionPatterns (normalize p)) = true := by
    rcases h3 with h | h
    · simp [h]
    · simp [h]
  rw [if_pos hcond]
  have hcond2 : ((sortPatterns patterns).inclusionPatterns.isEmpty
      && (sortPatterns patterns).advancedPatterns.isEmpty
      || picomatch (sortPatterns patterns).inclusionPatterns (normalize p)) = true := by
    simp [h1, h2]
  rw [if_pos hcond2]

/-- Witness for C5: the exclusion-only matcher `[!**/node_modules/**]`
accepts `src/a.js`, which matches no exclusion glob. -/
theorem default_accept_when_no_inclusion_no_advanced_witness :
    (PathMatcher.construct (.cons (.basic "!**/node_modules/**") .nil)).pathMatchesPatterns
      "src/a.js" = Except.ok true :=
  default_accept_when_no_inclusion_no_advanced
    (.cons (.basic "!**/node_modules/**") .nil) "src/a.js" rfl rfl
    (Or.inr (by decide))

/-- When the whole batch resolves, the pushed originals are exactly the
filter of the targets by the decision on their normalized forms. -/
theorem collectFiltered_eq_filter (patterns : TargetPatternList) :
    ∀ (targets : List String) (rs : List Bool),
      targets.mapM (fun t => generateMatchingFunction patterns (normalize t)) = Except.ok rs →
      collectFiltered targets rs = targets.filter (fun t => matchKeep patterns t) := by
  intro targets
  induction targets with
  | nil =>
    intro rs h
    simp only [List.mapM_nil] at h
    cases h
    rfl
  | cons t ts ih =>
    intro rs h
    rw [List.mapM_cons] at h
    cases hf : generateMatchingFunction patterns (normalize t) with
    | error e =>
      rw [hf] at h
      simp [Bind.bind, Except.bind] at h
    | ok b =>
      rw [hf] at h
      cases hm : ts.mapM (fun t => generateMatchingFunction patterns (normalize t)) with
      | error e =>
        rw [hm] at h
        simp [Bind.bind, Except.bind] at h
      | ok rs' =>
        rw [hm] at h
        simp only [Bind.bind, Except.bind, pure, Except.pure, Except.ok.injEq] at h
        subst h
        have hkeep : matchKeep patterns t = b := by
          unfold matchKeep
          rw [hf]
        cases b with
        | false => simp [collectFiltered, List.filter_cons, hkeep, ih rs' hm]
        | true => simp [collectFiltered, List.filter_cons, hkeep, ih rs' hm]

/-- C6: for every input path list, `filterPathsByPatterns` resolves (when it
resolves) to exactly the subsequence of the original input strings whose
normalized form satisfies the decision function, preserving the original
order and the original string values. -/
theorem filterPathsByPatterns_is_ordered_subsequence (patterns : TargetPatternList)
    (targets out : List String)
    (h : (PathMatcher.construct patterns).filterPathsByPatterns targets = Except.ok out) :
    out = targets.filter (fun t => matchKeep patterns t) ∧ out.Sublist targets := by
  unfold PathMatcher.filterPathsByPatterns at h
  cases hm : targets.mapM
      (fun t => (PathMatcher.construct patterns).matcher (normalize t)) with
  | error e =>
    rw [hm] at h
    cases h
  | ok rs =>
    rw [hm] at h
    cases h
    have := collectFiltered_eq_filter patterns targets rs hm
    rw [this]
    exact ⟨rfl, List.filter_sublist _⟩

/-- Witness for C6: with inclusion pattern `**/*.js`, the batch
`[b.js, a.js]` comes back as `[b.js, a.js]`, in input order. -/
theorem filterPathsByPatterns_is_ordered_subsequence_witness :
    (["b.js", "a.js"] : List String)
        = (["b.js", "a.js"] : List String).filter
            (fun t => matchKeep (.cons (.basic "**/*.js") .nil) t)
      ∧ (["b.js", "a.js"] : List String).Sublist ["b.js", "a.js"] :=
  filterPathsByPatterns_is_ordered_subsequence (.cons (.basic "**/*.js") .nil)
    ["b.js", "a.js"] ["b.js", "a.js"] rfl

/-- A batch gather rejects when the evaluation of any of its members
rejects, as `Promise.all` does. -/
theorem mapM_error_of_mem (f : String → Except String Bool) :
    ∀ (ts : List String) (t : String) (e : String), t ∈ ts → f t = Except.error e →
      ∃ e', ts.mapM f = Except.error e' := by
  intro ts
  induction ts with
  | nil => intro t e h _; cases h
  | cons a ts ih =>
    intro t e hmem hf
    rw [List.mapM_cons]
    cases hfa : f a with
    | error e2 => exact ⟨e2, rfl⟩
    | ok b =>
      rcases List.mem_cons.mp hmem with heq | hmem2
      · rw [heq, hfa] at hf
        cases hf
      · obtain ⟨e', he'⟩ := ih t e hmem2 hf
        refine ⟨e', ?_⟩
        show (ts.mapM f >>= fun xs => pure (b :: xs)) = Except.error e'
        rw [he']
        rfl

/-- C7: a rejecting caller-supplied advanced matcher rejects the enclosing
query: when the evaluation of a path reaches the advanced gather and the gather
rejects, the single-path query rejects with that failure (it is not turned
into false); and in a batch query, one rejecting evaluated path rejects the
whole batch at the gather. -/
theorem advanced_failure_propagates :
    (∀ (patterns : TargetPatternList) (p : String) (e : String),
      ((sortPatterns patterns).exclusionPatterns = []
          ∨ picomatch (sortPatterns patterns).exclusionPatterns (normalize p) = false) →
      ¬(((sortPatterns patterns).inclusionPatterns = []
            ∧ (sortPatterns patterns).advancedPatterns.isEmpty = true)
          ∨ picomatch (sortPatterns patterns).inclusionPatterns (normalize p) = true) →
      advancedResults patterns (normalize p) = Except.error e →
      (PathMatcher.construct patterns).pathMatchesPatterns p = Except.error e)
    ∧ (∀ (patterns : TargetPatternList) (targets : List String) (t : String) (e : String),
      t ∈ targets →
      generateMatchingFunction patterns (normalize t) = Except.error e →
      ∃ e', (PathMatcher.construct patterns).filterPathsByPatterns targets
        = Except.error e') := by
  constructor
  · intro patterns p e h1 h2 herr
    show composeDecision (sortPatterns patterns) (advancedResults patterns (normalize p))
        (normalize p) = _
    unfold composeDecision
    have hcond : ((sortPatterns patterns).exclusionPatterns.length == 0
        || !picomatch (sortPatterns patterns).exclusionPatterns (normalize p)) = true := by
      rcases h1 with h | h
      · simp [h]
      · simp [h]
    rw [if_pos hcond]
    have hcond2 : ((sortPatterns patterns).inclusionPatterns.isEmpty
        && (sortPatterns patterns).advancedPatterns.isEmpty
        || picomatch (sortPatterns patterns).inclusionPatterns (normalize p)) = false := by
      rw [Bool.or_eq_false_iff, Bool.and_eq_false_iff]
      constructor
      · by_cases hi : (sortPatterns patterns).inclusionPatterns = []
        · right
          cases ha : (sortPatterns patterns).advancedPatterns.isEmpty with
          | false => rfl
          | true => exact absurd (Or.inl ⟨hi, ha⟩) h2
        · left
          simp [List.isEmpty_iff, hi]
      · cases hp : picomatch (sortPatterns patterns).inclusionPatterns (normalize p) with
        | false => rfl
        | true => exact absurd (Or.inr hp) h2
    rw [if_neg (by simp [hcond2]), herr]
  · intro patterns targets t e hmem hf
    obtain ⟨e', he'⟩ := mapM_error_of_mem
      (fun t => generateMatchingFunction patterns (normalize t)) targets t e hmem hf
    refine ⟨e', ?_⟩
    unfold PathMatcher.filterPathsByPatterns
    rw [show (fun t => (PathMatcher.construct patterns).matcher (normalize t))
        = fun t => generateMatchingFunction patterns (normalize t) from rfl, he']

/-- Witness for C7: an advanced matcher rejecting with `boom` rejects the
single-path query on `x` and the batch query on `[x]`. -/
theorem advanced_failure_propagates_witness :
    (PathMatcher.construct (.cons (.advanced .nil (fun _ => Except.error "boom"))
        .nil)).pathMatchesPatterns "x" = Except.error "boom"
    ∧ ∃ e', (PathMatcher.construct (.cons (.advanced .nil (fun _ => Except.error "boom"))
        .nil)).filterPathsByPatterns ["x"] = Except.error e' :=
  ⟨advanced_failure_propagates.1
      (.cons (.advanced .nil (fun _ => Except.error "boom")) .nil) "x" "boom"
      (Or.inl rfl) (by decide) rfl,
    advanced_failure_propagates.2
      (.cons (.advanced .nil (fun _ => Except.error "boom")) .nil) ["x"] "x" "boom"
      (by simp) rfl⟩

/-- C8: queries are pure.  Two identical batch queries on one matcher give
identical results, and the decision function depends only on the sorted
pattern buckets the matcher was built from: two pattern lists classifying
identically decide identically. -/
theorem queries_are_pure (patterns : TargetPatternList) (targets : List String)
    (p : String) :
    (PathMatcher.construct patterns).filterPathsByPatterns targets
        = (PathMatcher.construct patterns).filterPathsByPatterns targets
    ∧ ∀ qpatterns : TargetPatternList, sortPatterns patterns = sortPatterns qpatterns →
        (PathMatcher.construct patterns).pathMatchesPatterns p
          = (PathMatcher.construct qpatterns).pathMatchesPatterns p := by
  refine ⟨rfl, fun qpatterns h => ?_⟩
  show composeDecision (sortPatterns patterns) (advancedResults patterns (normalize p))
      (normalize p)
    = composeDecision (sortPatterns qpatterns) (advancedResults qpatterns (normalize p))
      (normalize p)
  rw [advancedResults_eq_mapM, advancedResults_eq_mapM, h]

/-- Witness for C8: `a\x5cb` and `a/b` classify identically, so the two
matchers decide `a/b` identically. -/
theorem queries_are_pure_witness :
    (PathMatcher.construct (.cons (.basic "a\\b") .nil)).pathMatchesPatterns "a/b"
      = (PathMatcher.construct (.cons (.basic "a/b") .nil)).pathMatchesPatterns "a/b" :=
  (queries_are_pure (.cons (.basic "a\\b") .nil) [] "a/b").2
    (.cons (.basic "a/b") .nil) rfl

/-- C9: short-circuits resolve without the advanced matchers.  A path
matching an exclusion glob resolves to false, and a surviving path matching
an inclusion glob resolves to true, whatever the advanced matchers would do
(they are never awaited on these paths, so a rejecting advanced predicate
cannot fail such a query). -/
theorem short_circuit_skips_advanced (patterns : TargetPatternList) (p : String) :
    (picomatch (sortPatterns patterns).exclusionPatterns (normalize p) = true →
      (PathMatcher.construct patterns).pathMatchesPatterns p = Except.ok false)
    ∧ (((sortPatterns patterns).exclusionPatterns = []
          ∨ picomatch (sortPatterns patterns).exclusionPatterns (normalize p) = false) →
      picomatch (sortPatterns patterns).inclusionPatterns (normalize p) = true →
      (PathMatcher.construct patterns).pathMatchesPatterns p = Except.ok true) := by
  constructor
  · intro h
    exact composeDecision_excluded _ _ _ h
  · intro h1 h2
    show composeDecision (sortPatterns patterns) (advancedResults patterns (normalize p))
        (normalize p) = _
    unfold composeDecision
    have hcond : ((sortPatterns patterns).exclusionPatterns.length == 0
        || !picomatch (sortPatterns patterns).exclusionPatterns (normalize p)) = true := by
      rcases h1 with h | h
      · simp [h]
      · simp [h]
    rw [if_pos hcond]
    have hcond2 : ((sortPatterns patterns).inclusionPatterns.isEmpty
        && (sortPatterns patterns).advancedPatterns.isEmpty
        || picomatch (sortPatterns patterns).inclusionPatterns (normalize p)) = true := by
      simp [h2]
    rw [if_pos hcond2]

/-- Witness for C9: with an advanced matcher that always rejects, a path
matching the exclusion glob still resolves to false and a path matching the
inclusion glob still resolves to true. -/
theorem short_circuit_skips_advanced_witness :
    (PathMatcher.construct (.cons (.basic "!**/*.js")
        (.cons (.advanced .nil (fun _ => Except.error "e")) .nil))).pathMatchesPatterns
      "a.js" = Except.ok false
    ∧ (PathMatcher.construct (.cons (.basic "**/*.js")
        (.cons (.advanced .nil (fun _ => Except.error "e")) .nil))).pathMatchesPatterns
      "a.js" = Except.ok true :=
  ⟨(short_circuit_skips_advanced (.cons (.basic "!**/*.js")
      (.cons (.advanced .nil (fun _ => Except.error "e")) .nil)) "a.js").1 (by decide),
    (short_circuit_skips_advanced (.cons (.basic "**/*.js")
      (.cons (.advanced .nil (fun _ => Except.error "e")) .nil)) "a.js").2
      (Or.inl rfl) (by decide)⟩

/-- C10: an advanced pattern with an empty base-pattern list is decided by
its caller-supplied predicate alone, because the recursively built base
decision default-accepts every path (all three nested buckets are empty). -/
theorem empty_base_patterns_accept_all :
    (∀ t : String, generateMatchingFunction TargetPatternList.nil t = Except.ok true)
    ∧ ∀ (am : String → Except String Bool) (t : String),
        generateAdvancedMatcher TargetPatternList.nil am t = am t :=
  ⟨fun _ => rfl, fun _ _ => rfl⟩

end SfdxScanner
